import Mathlib

/-!
Shallow embedding of the IPv6 source-address pool manager and the
address-aware request dispatcher of this repository
(`src/libraries/ipv6pool.ts` and `src/libraries/ipv6proxy.ts`).

Modelling conventions:
* The module-level mutable variables `ipPool`, `currentIPIndex` and
  `initialized` become the fields of `PoolState`; every stateful function
  becomes a pure function from a state to a state (plus its return value).
* The host OS and the network are oracles: the outcome of one
  `exec` call is an `ExecOutcome`, the growth loop of `manageIPPool`
  consumes a stream `trials : Nat → String × Bool` pairing the value
  produced by `randomIPv6()` with the boolean result of
  `addIPv6ToInterface` for each iteration, and the result of one axios
  request is an `Except AxiosError A` supplied by the caller.
* `net.isIPv6` is a Node library function, external to the repository;
  it is a parameter `isIPv6 : String → Bool` throughout.  A JavaScript
  out-of-range read `ipPool[index]` yields `undefined`, modelled by
  `List.getElem?` returning `none`; `net.isIPv6(undefined)` is `false`,
  so a `none` entry always fails the validity check.
* `getNextIPFromPool` recurses without a structural bound in the source;
  the embedding adds an explicit `fuel` argument and returns `none` when
  the fuel runs out, so that `= none` for every fuel value expresses
  divergence of the original recursion.
-/

/-- The fields of the module-level `config` object consumed by the pool
(`ipv6Subnet`, `poolManageInterval` and `debug` do not influence the
modelled state transitions beyond the start-up emptiness checks). -/
structure Config where
  ipv6Prefix : String
  ipv6Subnet : String
  iface : String
  desiredPoolSize : Nat
  poolAddBatchSize : Nat
deriving DecidableEq

/-- The module-level mutable pool state: `ipPool`, `currentIPIndex`,
`initialized`.  (`poolMutex` and `poolTimer` concern scheduling only;
the claims below all assume a single pass in flight.) -/
structure PoolState where
  ipPool : List String
  currentIPIndex : Nat
  initialized : Bool
deriving DecidableEq

/-- Outcome of one `execAsync` command: success, or failure carrying the
(optional) `err.message` string. -/
inductive ExecOutcome where
  | success : ExecOutcome
  | failure : Option String → ExecOutcome
deriving DecidableEq

/-- Character-list prefix test (used to model the JavaScript
`String.prototype.includes`). -/
def charsPre : List Char → List Char → Bool
  | [], _ => true
  | _ :: _, [] => false
  | a :: as, b :: bs => a = b && charsPre as bs

/-- Character-list substring test. -/
def charsSub (needle : List Char) : List Char → Bool
  | [] => charsPre needle []
  | c :: rest => charsPre needle (c :: rest) || charsSub needle rest

/-- `strIncludes s pat` models the JavaScript `s.includes(pat)`. -/
def strIncludes (s pat : String) : Bool :=
  charsSub pat.toList s.toList

/-- `addIPv6ToInterface` from `ipv6pool.ts`: runs the platform add
command; returns `true` on success, `true` when the failure message
contains the substring `File exists` (idempotent add), `false` on any
other failure.  The function is total, modelling "never throws". -/
def addIPv6ToInterface : ExecOutcome → Bool
  | ExecOutcome.success => true
  | ExecOutcome.failure none => false
  | ExecOutcome.failure (some msg) => strIncludes msg "File exists"

/-- `getNextIPFromPool` from `ipv6pool.ts`, with an explicit fuel for
the unbounded self-recursion of the source.  Result `none` means the
fuel ran out (the source recursion has not returned after `fuel`
unfoldings); `some (r, s)` means the source returns `r` (`none` = the
JavaScript `null`) leaving the module state `s`. -/
def getNextIPFromPool (isIPv6 : String → Bool) :
    Nat → PoolState → Option (Option String × PoolState)
  | 0, _ => none
  | fuel + 1, s =>
    if s.initialized = false ∨ s.ipPool.length = 0 then some (none, s)
    else
      let index := s.currentIPIndex
      let s1 : PoolState := { s with currentIPIndex := (index + 1) % s.ipPool.length }
      match s.ipPool[index]? with
      | some ip =>
        if isIPv6 ip then some (some ip, s1)
        else getNextIPFromPool isIPv6 fuel s1
      | none => getNextIPFromPool isIPv6 fuel s1

/-- Iterate `getNextIPFromPool` a given number of times, collecting the
returned values.  Propagates fuel exhaustion. -/
def runNext (isIPv6 : String → Bool) (fuel : Nat) :
    Nat → PoolState → Option (List (Option String) × PoolState)
  | 0, s => some ([], s)
  | n + 1, s =>
    match getNextIPFromPool isIPv6 fuel s with
    | none => none
    | some (r, s1) =>
      match runNext isIPv6 fuel n s1 with
      | none => none
      | some (rs, s2) => some (r :: rs, s2)

/-- One reconciliation pass (`manageIPPool` from `ipv6pool.ts`).
`trials i` supplies, for iteration `i` of the growth loop, the address
produced by `randomIPv6()` and the boolean result of
`addIPv6ToInterface` for it.  Removal outcomes do not affect the state:
the source drops the removed entries from `ipPool` before awaiting the
interface removals and ignores their results. -/
def manageIPPool (cfg : Config) (trials : Nat → String × Bool)
    (s : PoolState) : PoolState :=
  let currentSize := s.ipPool.length
  let needToAdd := currentSize < cfg.desiredPoolSize
  let batchTarget := min cfg.poolAddBatchSize (cfg.desiredPoolSize - currentSize)
  let shouldReplace := cfg.desiredPoolSize ≤ currentSize
  let afterRemove : List String × Nat :=
    if shouldReplace then
      let numToRemove := min cfg.poolAddBatchSize currentSize
      let pool1 := s.ipPool.drop numToRemove
      let idx1 :=
        if pool1.length ≤ s.currentIPIndex ∧ 0 < pool1.length then 0
        else s.currentIPIndex
      (pool1, idx1)
    else (s.ipPool, s.currentIPIndex)
  let addedIPs : List String :=
    if needToAdd ∧ 0 < batchTarget then
      (((List.range batchTarget).map trials).filter (fun t => t.2)).map (fun t => t.1)
    else []
  { s with ipPool := afterRemove.1 ++ addedIPs, currentIPIndex := afterRemove.2 }

/-- `initIPv6Pool` from `ipv6pool.ts`.  `ifaceOk` is the result of
`checkInterface()` (an OS inspection, hence an oracle).  Returns the new
state and the boolean result of the source function.  The synchronous
first reconciliation pass runs before `initialized` is set. -/
def initIPv6Pool (cfg : Config) (ifaceOk : Bool) (trials : Nat → String × Bool)
    (s : PoolState) : PoolState × Bool :=
  if s.initialized = true then (s, true)
  else if cfg.ipv6Prefix = "" ∨ cfg.ipv6Subnet = "" then (s, false)
  else if ifaceOk = false then (s, false)
  else
    let s1 := manageIPPool cfg trials s
    ({ s1 with initialized := true }, true)

/-- `stopIPv6Pool` from `ipv6pool.ts`.  Returns the new state together
with the list of addresses for which an interface removal was attempted
(the source loops over the whole of `ipPool`, awaiting
`removeIPv6FromInterface` for each entry and continuing regardless of
the individual boolean results, then clears the pool). -/
def stopIPv6Pool (s : PoolState) : PoolState × List String :=
  if s.initialized = false then (s, [])
  else ({ ipPool := [], currentIPIndex := 0, initialized := false }, s.ipPool)

/-- `isIPv6RotationEnabled` from `ipv6pool.ts`. -/
def isIPv6RotationEnabled (s : PoolState) : Bool :=
  s.initialized && decide (0 < s.ipPool.length)

/-- The record returned by `getIPv6PoolInfo` (field `prefix` of the
source renamed `ipv6Prefix`). -/
structure PoolInfo where
  enabled : Bool
  poolSize : Nat
  iface : String
  ipv6Prefix : String
deriving DecidableEq

/-- `getIPv6PoolInfo` from `ipv6pool.ts`. -/
def getIPv6PoolInfo (cfg : Config) (s : PoolState) : PoolInfo :=
  { enabled := s.initialized
    poolSize := s.ipPool.length
    iface := cfg.iface
    ipv6Prefix := cfg.ipv6Prefix }

/-- An axios error object, as inspected by the dispatcher: its `code`
property (possibly absent) and its message. -/
structure AxiosError where
  code : Option String
  message : String
deriving DecidableEq

/-- One outbound network attempt made by the dispatcher: bound to a
specific local source address, or via the unbound default path. -/
inductive Attempt where
  | bound : String → Attempt
  | unbound : Attempt
deriving DecidableEq

/-- Options of the agent built by `createIPv6Agent` in `ipv6proxy.ts`:
`keepAlive: true, timeout: 30000, localAddress: ipv6`. -/
structure AgentOptions where
  keepAlive : Bool
  timeout : Option Nat
  localAddress : Option String
deriving DecidableEq

/-- `createIPv6Agent` from `ipv6proxy.ts`: the boolean records whether
an `https.Agent` (rather than an `http.Agent`) is constructed; the
options are identical in both cases. -/
def createIPv6Agent (ipv6 : String) (isHttps : Bool) : Bool × AgentOptions :=
  (isHttps, { keepAlive := true, timeout := some 30000, localAddress := some ipv6 })

/-- `requestWithIPv6` from `ipv6proxy.ts`.  `rotation` is the value of
`isIPv6RotationEnabled()`, `nextIP` the value `getNextIPFromPool()`
would return, `ipv6` the optional explicit address argument.  `res1` is
the outcome of whichever network request is issued first, `res2` the
outcome of a second request when one is issued.  The returned list
records the attempts actually made, in order. -/
def requestWithIPv6 {A : Type} (rotation : Bool) (nextIP : Option String)
    (ipv6 : Option String) (res1 res2 : Except AxiosError A) :
    Except AxiosError A × List Attempt :=
  if rotation = false ∧ ipv6 = none then (res1, [Attempt.unbound])
  else
    match ipv6.orElse (fun _ => nextIP) with
    | none => (res1, [Attempt.unbound])
    | some sourceIp =>
      match res1 with
      | Except.ok r => (Except.ok r, [Attempt.bound sourceIp])
      | Except.error e =>
        if e.code = some "EADDRNOTAVAIL" ∨ e.code = some "ENETUNREACH" then
          (res2, [Attempt.bound sourceIp, Attempt.unbound])
        else (Except.error e, [Attempt.bound sourceIp])

/-- The components of a parsed URL consumed by
`createIPv6StreamRequest`. -/
structure URLParts where
  hostname : String
  port : Option Nat
  pathname : String
  search : String
  isHttps : Bool
deriving DecidableEq

/-- The `http.RequestOptions` record built by `createIPv6StreamRequest`.
`timeout` and `agent` are part of the Node options type; the source
leaves both unset, modelled as `none`. -/
structure RequestOptions where
  hostname : String
  port : Nat
  path : String
  method : String
  localAddress : Option String
  timeout : Option Nat
  agent : Option AgentOptions
deriving DecidableEq

/-- `createIPv6StreamRequest` from `ipv6proxy.ts`: the options record it
passes to `http.request` / `https.request`.  `rotation` is the value of
`isIPv6RotationEnabled()` and `nextIP` the value `getNextIPFromPool()`
would return. -/
def createIPv6StreamRequest (rotation : Bool) (nextIP : Option String)
    (ipv6 : Option String) (meth : String) (uri : URLParts) : RequestOptions :=
  let sourceIp := ipv6.orElse (fun _ => if rotation then nextIP else none)
  { hostname := uri.hostname
    port := uri.port.getD (if uri.isHttps then 443 else 80)
    path := uri.pathname ++ uri.search
    method := meth
    localAddress := sourceIp
    timeout := none
    agent := none }

/-- States of the module reachable through the operations the source
exposes: the state at module load, `initIPv6Pool`, a timer-driven
`manageIPPool` pass (the timer only runs once `initialized` is set),
a `getNextIPFromPool` call that returned, and `stopIPv6Pool`. -/
inductive Reachable (cfg : Config) (isIPv6 : String → Bool) : PoolState → Prop where
  | load : Reachable cfg isIPv6 { ipPool := [], currentIPIndex := 0, initialized := false }
  | initStep (ifaceOk : Bool) (trials : Nat → String × Bool) {s : PoolState} :
      Reachable cfg isIPv6 s →
      Reachable cfg isIPv6 (initIPv6Pool cfg ifaceOk trials s).1
  | reconcileStep (trials : Nat → String × Bool) {s : PoolState} :
      Reachable cfg isIPv6 s → s.initialized = true →
      Reachable cfg isIPv6 (manageIPPool cfg trials s)
  | nextStep (fuel : Nat) {s s1 : PoolState} {r : Option String} :
      Reachable cfg isIPv6 s →
      getNextIPFromPool isIPv6 fuel s = some (r, s1) →
      Reachable cfg isIPv6 s1
  | stopStep {s : PoolState} :
      Reachable cfg isIPv6 s → Reachable cfg isIPv6 (stopIPv6Pool s).1

/-- Helper: a `getNextIPFromPool` call never returns when the pool is
nonempty, the state is initialized, and every entry fails the validity
check: whatever the fuel, it is exhausted. -/
theorem getNext_all_invalid (isIPv6 : String → Bool) :
    ∀ (fuel : Nat) (s : PoolState), s.initialized = true →
      (∀ ip ∈ s.ipPool, isIPv6 ip = false) → 0 < s.ipPool.length →
      getNextIPFromPool isIPv6 fuel s = none := by
  intro fuel
  induction fuel with
  | zero => intro s _ _ _; rfl
  | succ fuel ih =>
      intro s hinit hv hlen
      rw [getNextIPFromPool]
      rw [if_neg (by
        intro hc
        cases hc with
        | inl h1 => rw [hinit] at h1; cases h1
        | inr h2 => omega)]
      cases hg : s.ipPool[s.currentIPIndex]? with
      | none => simp only [hg]; exact ih _ hinit hv hlen
      | some ip =>
          simp only [hg, hv ip (List.getElem?_mem hg), Bool.false_eq_true, if_false]
          exact ih _ hinit hv hlen

/-- C3: the source guards neither against invalid entries cycling
forever nor caps the retries: on an initialized pool whose single entry
is not a valid IPv6 address, the recursion in `next()` never returns,
for any unfolding depth. -/
theorem c3_next_unbounded_on_all_invalid :
    ∀ fuel : Nat,
      getNextIPFromPool (fun _ => false) fuel
        ⟨["not-an-ipv6-address"], 0, true⟩ = none := by
  intro fuel
  exact getNext_all_invalid _ fuel _ rfl (by intro ip _; rfl) (by decide)

/-- C7: `stopIPv6Pool` on a started pool attempts an interface removal
of every address present beforehand and leaves the pool empty with the
cursor at 0; on a never-started or already-stopped pool it is a no-op,
and a second call after any stop is a no-op. -/
theorem c7_stop_drains_and_is_idempotent (s : PoolState) :
    (s.initialized = true →
      stopIPv6Pool s =
        ({ ipPool := [], currentIPIndex := 0, initialized := false }, s.ipPool)) ∧
    (s.initialized = false → stopIPv6Pool s = (s, [])) ∧
    stopIPv6Pool (stopIPv6Pool s).1 = ((stopIPv6Pool s).1, []) := by
  obtain ⟨pool, idx, b⟩ := s
  cases b <;> refine ⟨?_, ?_, ?_⟩ <;> simp [stopIPv6Pool]

/-- Witness for C7 at a concrete started pool. -/
theorem c7_witness :
    stopIPv6Pool ⟨["2001:db8::1"], 0, true⟩ =
      (⟨[], 0, false⟩, ["2001:db8::1"]) :=
  (c7_stop_drains_and_is_idempotent _).1 rfl

/-- C9: `addIPv6ToInterface` returns `true` when the command succeeds or
when its failure message contains the already-exists marker
`File exists`, and `false` on any other failure (including a failure
with no message); as a total function it never throws. -/
theorem c9_add_idempotent_never_throws :
    addIPv6ToInterface ExecOutcome.success = true ∧
    (∀ msg, strIncludes msg "File exists" = true →
      addIPv6ToInterface (ExecOutcome.failure (some msg)) = true) ∧
    (∀ msg, strIncludes msg "File exists" = false →
      addIPv6ToInterface (ExecOutcome.failure (some msg)) = false) ∧
    addIPv6ToInterface (ExecOutcome.failure none) = false := by
  refine ⟨rfl, ?_, ?_, rfl⟩
  · intro msg h; simpa [addIPv6ToInterface] using h
  · intro msg h; simpa [addIPv6ToInterface] using h

/-- Witness for C9: the Linux already-exists message is accepted, a
permission failure is not. -/
theorem c9_witness :
    addIPv6ToInterface (ExecOutcome.failure (some "RTNETLINK answers: File exists")) = true ∧
    addIPv6ToInterface (ExecOutcome.failure (some "Operation not permitted")) = false :=
  ⟨c9_add_idempotent_never_throws.2.1 _ (by decide),
   c9_add_idempotent_never_throws.2.2.1 _ (by decide)⟩

/-- C6: when the dispatcher has selected a source address and the bound
request fails, an error code of `EADDRNOTAVAIL` or `ENETUNREACH`
triggers exactly one fallback attempt via the unbound default path,
whose outcome (success or failure) is what the caller receives; any
other error is propagated unchanged with no fallback attempt. -/
theorem c6_fallback_on_address_errors {A : Type} (rotation : Bool)
    (nextIP ipv6 : Option String) (src : String) (e : AxiosError)
    (res2 : Except AxiosError A)
    (hgate : ¬(rotation = false ∧ ipv6 = none))
    (hsel : ipv6.orElse (fun _ => nextIP) = some src) :
    requestWithIPv6 rotation nextIP ipv6 (Except.error e) res2 =
      (if e.code = some "EADDRNOTAVAIL" ∨ e.code = some "ENETUNREACH" then
        (res2, [Attempt.bound src, Attempt.unbound])
      else (Except.error e, [Attempt.bound src])) := by
  rw [requestWithIPv6, if_neg hgate, hsel]

/-- Witness for C6: a network-unreachable failure of the bound request
hands back the fallback outcome after exactly one unbound attempt. -/
theorem c6_witness :
    requestWithIPv6 true (some "2001:db8::7") none
      (Except.error { code := some "ENETUNREACH", message := "connect ENETUNREACH" })
      (Except.ok 200) =
      (Except.ok 200, [Attempt.bound "2001:db8::7", Attempt.unbound]) :=
  (c6_fallback_on_address_errors true (some "2001:db8::7") none "2001:db8::7" _
      (Except.ok 200) (by simp) rfl).trans rfl

/-- C8 counterexample: the streaming variant builds its request options
with no timeout and no custom agent, while the buffered variant's bound
agent carries `keepAlive` and the fixed 30000 ms timeout — so not every
outbound request carries a fixed timeout, and the streaming transport
parameters differ from the buffered ones. -/
theorem c8_counterexample :
    (createIPv6StreamRequest true (some "2001:db8::9") none "GET"
        ⟨"example.com", none, "/seg.ts", "", false⟩).timeout = none ∧
    (createIPv6StreamRequest true (some "2001:db8::9") none "GET"
        ⟨"example.com", none, "/seg.ts", "", false⟩).agent = none ∧
    (createIPv6Agent "2001:db8::9" false).2.timeout = some 30000 ∧
    (createIPv6Agent "2001:db8::9" false).2.keepAlive = true := by
  refine ⟨rfl, rfl, rfl, rfl⟩

/-- C8 as amended: the buffered dispatcher's bound transport always uses
connection reuse with the fixed 30000 ms timeout and the selected local
address, while the streaming variant binds the same selected source
address in its options but sets neither a timeout nor a custom agent. -/
theorem c8_amended_transport_parameters :
    ∀ (rotation : Bool) (nextIP ipv6 : Option String) (meth : String) (uri : URLParts),
      (createIPv6StreamRequest rotation nextIP ipv6 meth uri).localAddress =
          ipv6.orElse (fun _ => if rotation then nextIP else none) ∧
      (createIPv6StreamRequest rotation nextIP ipv6 meth uri).timeout = none ∧
      (createIPv6StreamRequest rotation nextIP ipv6 meth uri).agent = none ∧
      ∀ (ip : String) (isHttps : Bool),
        createIPv6Agent ip isHttps =
          (isHttps, { keepAlive := true, timeout := some 30000, localAddress := some ip }) := by
  intro rotation nextIP ipv6 meth uri
  exact ⟨rfl, rfl, rfl, fun ip isHttps => rfl⟩

/-- C10: with the pool initialized but empty, the status snapshot
reports `enabled = true` and `poolSize = 0`, while the rotation
predicate the dispatcher consults is `false`, so a dispatch without an
explicit address takes the unbound default path. -/
theorem c10_enabled_but_empty_pool {A : Type} (cfg : Config) (s : PoolState)
    (hinit : s.initialized = true) (hempty : s.ipPool = [])
    (nextIP : Option String) (res1 res2 : Except AxiosError A) :
    (getIPv6PoolInfo cfg s).enabled = true ∧
    (getIPv6PoolInfo cfg s).poolSize = 0 ∧
    isIPv6RotationEnabled s = false ∧
    requestWithIPv6 (isIPv6RotationEnabled s) nextIP none res1 res2 =
      (res1, [Attempt.unbound]) := by
  have hrot : isIPv6RotationEnabled s = false := by
    simp [isIPv6RotationEnabled, hempty]
  refine ⟨hinit, ?_, hrot, ?_⟩
  · simp [getIPv6PoolInfo, hempty]
  · rw [requestWithIPv6, if_pos ⟨hrot, rfl⟩]

/-- Witness for C10 at a concrete initialized-but-empty state. -/
theorem c10_witness :
    (getIPv6PoolInfo ⟨"2001:db8", "1", "eth0", 20, 5⟩ ⟨[], 0, true⟩).enabled = true ∧
    (getIPv6PoolInfo ⟨"2001:db8", "1", "eth0", 20, 5⟩ ⟨[], 0, true⟩).poolSize = 0 ∧
    isIPv6RotationEnabled ⟨[], 0, true⟩ = false ∧
    requestWithIPv6 (isIPv6RotationEnabled ⟨[], 0, true⟩)
      none none (Except.ok 7) (Except.ok 8) = (Except.ok 7, [Attempt.unbound]) :=
  c10_enabled_but_empty_pool _ _ rfl rfl none (Except.ok 7) (Except.ok 8)

/-- C5 counterexample: a steady-state pool of 5 with `desiredSize = 5`
and `batchSize = 2`, all interface operations succeeding, does not keep
its size across the pass: the pass removes the 2 oldest entries and adds
nothing (growth is decided from the size measured before the removal),
leaving 3 addresses, not 5. -/
theorem c5_counterexample :
    (manageIPPool ⟨"2001:db8", "1", "eth0", 5, 2⟩
        (fun n => (if n = 0 then "2001:db8::a" else "2001:db8::b", true))
        ⟨["2001:db8::1", "2001:db8::2", "2001:db8::3", "2001:db8::4", "2001:db8::5"],
          0, true⟩).ipPool =
      ["2001:db8::3", "2001:db8::4", "2001:db8::5"] ∧
    (manageIPPool ⟨"2001:db8", "1", "eth0", 5, 2⟩
        (fun n => (if n = 0 then "2001:db8::a" else "2001:db8::b", true))
        ⟨["2001:db8::1", "2001:db8::2", "2001:db8::3", "2001:db8::4", "2001:db8::5"],
          0, true⟩).ipPool.length = 3 := by
  exact ⟨rfl, rfl⟩

/-- C5 as amended: with `desiredSize = 5`, `batchSize = 2` and a pool of
5, the reconciliation pass is a pure replacement step — it drops the 2
oldest addresses and adds none, leaving 3; the size returns to 5 only on
the following pass, whose growth appends the 2 freshly added addresses
(when both interface adds succeed). -/
theorem c5_amended_replacement_then_growth (pre sub ifc : String) (s : PoolState)
    (h5 : s.ipPool.length = 5) (trials trials2 : Nat → String × Bool)
    (h0 : (trials2 0).2 = true) (h1 : (trials2 1).2 = true) :
    (manageIPPool ⟨pre, sub, ifc, 5, 2⟩ trials s).ipPool = s.ipPool.drop 2 ∧
    (manageIPPool ⟨pre, sub, ifc, 5, 2⟩ trials s).ipPool.length = 3 ∧
    (manageIPPool ⟨pre, sub, ifc, 5, 2⟩ trials2
        (manageIPPool ⟨pre, sub, ifc, 5, 2⟩ trials s)).ipPool =
      s.ipPool.drop 2 ++ [(trials2 0).1, (trials2 1).1] ∧
    (manageIPPool ⟨pre, sub, ifc, 5, 2⟩ trials2
        (manageIPPool ⟨pre, sub, ifc, 5, 2⟩ trials s)).ipPool.length = 5 := by
  have hrange : List.range 2 = [0, 1] := rfl
  have e1 : (manageIPPool ⟨pre, sub, ifc, 5, 2⟩ trials s).ipPool = s.ipPool.drop 2 := by
    simp [manageIPPool, h5]
  have l1 : (manageIPPool ⟨pre, sub, ifc, 5, 2⟩ trials s).ipPool.length = 3 := by
    rw [e1, List.length_drop, h5]
  have e2 : (manageIPPool ⟨pre, sub, ifc, 5, 2⟩ trials2
      (manageIPPool ⟨pre, sub, ifc, 5, 2⟩ trials s)).ipPool =
      s.ipPool.drop 2 ++ [(trials2 0).1, (trials2 1).1] := by
    rw [manageIPPool]
    simp [l1, e1, hrange, h0, h1, h5, List.filter]
  refine ⟨e1, l1, e2, ?_⟩
  rw [e2]
  simp [List.length_drop, h5]

/-- Witness for C5 at a concrete steady-state pool with all-successful
interface operations. -/
theorem c5_witness :
    (manageIPPool ⟨"2001:db8", "1", "eth0", 5, 2⟩
        (fun _ => ("2001:db8::a", true))
        ⟨["i1", "i2", "i3", "i4", "i5"], 0, true⟩).ipPool =
      ["i1", "i2", "i3", "i4", "i5"].drop 2 ∧
    (manageIPPool ⟨"2001:db8", "1", "eth0", 5, 2⟩
        (fun _ => ("2001:db8::a", true))
        ⟨["i1", "i2", "i3", "i4", "i5"], 0, true⟩).ipPool.length = 3 ∧
    (manageIPPool ⟨"2001:db8", "1", "eth0", 5, 2⟩ (fun _ => ("2001:db8::b", true))
        (manageIPPool ⟨"2001:db8", "1", "eth0", 5, 2⟩
          (fun _ => ("2001:db8::a", true))
          ⟨["i1", "i2", "i3", "i4", "i5"], 0, true⟩)).ipPool =
      ["i1", "i2", "i3", "i4", "i5"].drop 2 ++ ["2001:db8::b", "2001:db8::b"] ∧
    (manageIPPool ⟨"2001:db8", "1", "eth0", 5, 2⟩ (fun _ => ("2001:db8::b", true))
        (manageIPPool ⟨"2001:db8", "1", "eth0", 5, 2⟩
          (fun _ => ("2001:db8::a", true))
          ⟨["i1", "i2", "i3", "i4", "i5"], 0, true⟩)).ipPool.length = 5 :=
  c5_amended_replacement_then_growth "2001:db8" "1" "eth0"
    ⟨["i1", "i2", "i3", "i4", "i5"], 0, true⟩ rfl
    (fun _ => ("2001:db8::a", true)) (fun _ => ("2001:db8::b", true)) rfl rfl

/-- C1 as amended: after a reconciliation pass that performs a shrink
(pool at or above `desiredSize` beforehand) and leaves the pool
nonempty, the cursor is within range — it is reset to `0` exactly when
it would otherwise fall out of range.  (The unconditional invariant of
the original claim fails when a shrink empties the pool: the reset is
skipped, and a later growth pass can re-add fewer addresses than the
stale cursor value.) -/
theorem c1_amended_cursor_reset_on_nonempty_shrink (cfg : Config)
    (trials : Nat → String × Bool) (s : PoolState)
    (hshrink : cfg.desiredPoolSize ≤ s.ipPool.length)
    (hne : 0 < (manageIPPool cfg trials s).ipPool.length) :
    (manageIPPool cfg trials s).currentIPIndex <
      (manageIPPool cfg trials s).ipPool.length := by
  have hnadd : ¬ s.ipPool.length < cfg.desiredPoolSize := Nat.not_lt.mpr hshrink
  rw [manageIPPool] at hne ⊢
  simp only [hshrink, hnadd, if_true, if_pos, false_and, if_false, List.append_nil,
    if_neg (by simp : ¬ (False ∧ 0 < min cfg.poolAddBatchSize
      (cfg.desiredPoolSize - s.ipPool.length)))] at hne ⊢
  split <;> omega

/-- Witness for C1 (amended) at a concrete shrink that leaves one entry
and resets the out-of-range cursor to 0. -/
theorem c1_witness :
    (manageIPPool ⟨"2001:db8", "1", "eth0", 2, 1⟩ (fun _ => ("2001:db8::z", true))
        ⟨["2001:db8::1", "2001:db8::2"], 1, true⟩).currentIPIndex <
      (manageIPPool ⟨"2001:db8", "1", "eth0", 2, 1⟩ (fun _ => ("2001:db8::z", true))
        ⟨["2001:db8::1", "2001:db8::2"], 1, true⟩).ipPool.length :=
  c1_amended_cursor_reset_on_nonempty_shrink _ _ _ (by decide) (by decide)

/-- C1 counterexample: a reachable state (start with
`desiredSize = 2`, `batchSize = 5`; one `next()` call; a replacement
pass that empties the pool without resetting the cursor; a growth pass
in which only the second interface add succeeds) whose pool is nonempty
while the cursor equals the pool length, violating
`0 <= cursor < len(addresses)`. -/
theorem c1_counterexample :
    Reachable ⟨"2001:db8", "1", "eth0", 2, 5⟩ (fun _ => true)
      ⟨["2001:db8::c"], 1, true⟩ ∧
    0 < (⟨["2001:db8::c"], 1, true⟩ : PoolState).ipPool.length ∧
    (⟨["2001:db8::c"], 1, true⟩ : PoolState).ipPool.length ≤
      (⟨["2001:db8::c"], 1, true⟩ : PoolState).currentIPIndex := by
  refine ⟨?_, by decide, by decide⟩
  have h1 : Reachable ⟨"2001:db8", "1", "eth0", 2, 5⟩ (fun _ => true)
      (⟨[], 0, false⟩ : PoolState) := Reachable.load
  have h2 : Reachable ⟨"2001:db8", "1", "eth0", 2, 5⟩ (fun _ => true)
      (⟨["2001:db8::a", "2001:db8::b"], 0, true⟩ : PoolState) := by
    have h := Reachable.initStep true
      (fun n => (if n = 0 then "2001:db8::a" else "2001:db8::b", true)) h1
    have e : (initIPv6Pool ⟨"2001:db8", "1", "eth0", 2, 5⟩ true
        (fun n => (if n = 0 then "2001:db8::a" else "2001:db8::b", true))
        ⟨[], 0, false⟩).1 =
        (⟨["2001:db8::a", "2001:db8::b"], 0, true⟩ : PoolState) := by decide
    rwa [e] at h
  have h3 : Reachable ⟨"2001:db8", "1", "eth0", 2, 5⟩ (fun _ => true)
      (⟨["2001:db8::a", "2001:db8::b"], 1, true⟩ : PoolState) :=
    @Reachable.nextStep ⟨"2001:db8", "1", "eth0", 2, 5⟩ (fun _ => true) 1
      ⟨["2001:db8::a", "2001:db8::b"], 0, true⟩
      ⟨["2001:db8::a", "2001:db8::b"], 1, true⟩
      (some "2001:db8::a") h2 (by decide)
  have h4 : Reachable ⟨"2001:db8", "1", "eth0", 2, 5⟩ (fun _ => true)
      (⟨[], 1, true⟩ : PoolState) := by
    have h := Reachable.reconcileStep (fun _ => ("2001:db8::unused", true)) h3 rfl
    have e : manageIPPool ⟨"2001:db8", "1", "eth0", 2, 5⟩
        (fun _ => ("2001:db8::unused", true))
        ⟨["2001:db8::a", "2001:db8::b"], 1, true⟩ =
        (⟨[], 1, true⟩ : PoolState) := by decide
    rwa [e] at h
  have h5 : Reachable ⟨"2001:db8", "1", "eth0", 2, 5⟩ (fun _ => true)
      (⟨["2001:db8::c"], 1, true⟩ : PoolState) := by
    have h := Reachable.reconcileStep
      (fun n => (if n = 0 then ("2001:db8::x", false) else ("2001:db8::c", true))) h4 rfl
    have e : manageIPPool ⟨"2001:db8", "1", "eth0", 2, 5⟩
        (fun n => (if n = 0 then ("2001:db8::x", false) else ("2001:db8::c", true)))
        ⟨[], 1, true⟩ =
        (⟨["2001:db8::c"], 1, true⟩ : PoolState) := by decide
    rwa [e] at h
  exact h5

/-- Helper: one reconciliation pass keeps the pool at or below
`desiredSize` whenever it starts at or below it (replacement only
shrinks; growth adds at most `desiredSize - currentSize`). -/
theorem manageIPPool_length_le (cfg : Config) (trials : Nat → String × Bool)
    (s : PoolState) (h : s.ipPool.length ≤ cfg.desiredPoolSize) :
    (manageIPPool cfg trials s).ipPool.length ≤ cfg.desiredPoolSize := by
  rw [manageIPPool]
  by_cases hrep : cfg.desiredPoolSize ≤ s.ipPool.length
  · have hnadd : ¬ s.ipPool.length < cfg.desiredPoolSize := Nat.not_lt.mpr hrep
    simp only [hrep, hnadd, if_true, false_and, if_false, List.append_nil,
      if_neg (by simp : ¬ (False ∧ 0 < min cfg.poolAddBatchSize
        (cfg.desiredPoolSize - s.ipPool.length)))]
    simp only [List.length_drop]
    omega
  · have hadd : s.ipPool.length < cfg.desiredPoolSize := Nat.not_le.mp hrep
    have hfilter :
        ((((List.range (min cfg.poolAddBatchSize
            (cfg.desiredPoolSize - s.ipPool.length))).map trials).filter
              (fun t => t.2)).map (fun t => t.1)).length ≤
          min cfg.poolAddBatchSize (cfg.desiredPoolSize - s.ipPool.length) := by
      rw [List.length_map]
      calc (((List.range (min cfg.poolAddBatchSize
              (cfg.desiredPoolSize - s.ipPool.length))).map trials).filter
                (fun t => t.2)).length
          ≤ (((List.range (min cfg.poolAddBatchSize
              (cfg.desiredPoolSize - s.ipPool.length))).map trials)).length :=
            List.length_filter_le _ _
        _ = min cfg.poolAddBatchSize (cfg.desiredPoolSize - s.ipPool.length) := by
            rw [List.length_map, List.length_range]
    simp only [hrep, if_false]
    split
    · simp only [List.length_append]
      omega
    · simp only [List.length_append, List.length_nil]
      omega

/-- Helper: a returning `getNextIPFromPool` call changes only the
cursor: the pool and the initialization flag are untouched. -/
theorem getNextIPFromPool_preserves (isIPv6 : String → Bool) :
    ∀ (fuel : Nat) (s s1 : PoolState) (r : Option String),
      getNextIPFromPool isIPv6 fuel s = some (r, s1) →
      s1.ipPool = s.ipPool ∧ s1.initialized = s.initialized := by
  intro fuel
  induction fuel with
  | zero => intro s s1 r h; cases h
  | succ fuel ih =>
      intro s s1 r h
      rw [getNextIPFromPool] at h
      by_cases hc : s.initialized = false ∨ s.ipPool.length = 0
      · rw [if_pos hc] at h
        obtain ⟨rfl, rfl⟩ : none = r ∧ s = s1 := by
          injection h with h; injection h with h1 h2; exact ⟨h1, h2⟩
        exact ⟨rfl, rfl⟩
      · rw [if_neg hc] at h
        cases hg : s.ipPool[s.currentIPIndex]? with
        | some ip =>
            simp only [hg] at h
            by_cases hv : isIPv6 ip = true
            · rw [if_pos hv] at h
              obtain ⟨rfl, rfl⟩ : some ip = r ∧ _ = s1 := by
                injection h with h; injection h with h1 h2; exact ⟨h1, h2⟩
              exact ⟨rfl, rfl⟩
            · rw [if_neg hv] at h
              have h2 := ih _ _ _ h
              exact h2
        | none =>
            simp only [hg] at h
            have h2 := ih _ _ _ h
            exact h2

/-- Helper: the invariant `len(addresses) <= desiredSize` holds in every
reachable state. -/
theorem reachable_length_le (cfg : Config) (isIPv6 : String → Bool) (s : PoolState)
    (h : Reachable cfg isIPv6 s) : s.ipPool.length ≤ cfg.desiredPoolSize := by
  induction h with
  | load => exact Nat.zero_le _
  | initStep ifaceOk trials hr ih =>
      rw [initIPv6Pool]
      split
      · exact ih
      · split
        · exact ih
        · split
          · exact ih
          · exact manageIPPool_length_le cfg trials _ ih
  | reconcileStep trials hr hinit ih => exact manageIPPool_length_le cfg trials _ ih
  | nextStep fuel hr hnext ih =>
      rw [(getNextIPFromPool_preserves isIPv6 _ _ _ _ hnext).1]
      exact ih
  | stopStep hr ih =>
      rw [stopIPv6Pool]
      split
      · exact ih
      · exact Nat.zero_le _

/-- C4: from any reachable state (in particular any state after a
successful `start()`), the state immediately after a completed
reconciliation pass satisfies `len(addresses) <= desiredSize`, for any
batch size, desired size and pattern of interface-add successes. -/
theorem c4_pool_never_exceeds_desired_size (cfg : Config) (isIPv6 : String → Bool)
    (s : PoolState) (h : Reachable cfg isIPv6 s) (trials : Nat → String × Bool) :
    (manageIPPool cfg trials s).ipPool.length ≤ cfg.desiredPoolSize :=
  manageIPPool_length_le cfg trials s (reachable_length_le cfg isIPv6 s h)

/-- Witness for C4: a reconciliation pass from the freshly started state
with `desiredSize = 2`, `batchSize = 5` stays within the bound. -/
theorem c4_witness :
    (manageIPPool ⟨"2001:db8", "1", "eth0", 2, 5⟩ (fun _ => ("2001:db8::w", true))
        ⟨[], 0, false⟩).ipPool.length ≤ 2 :=
  c4_pool_never_exceeds_desired_size ⟨"2001:db8", "1", "eth0", 2, 5⟩ (fun _ => true)
    ⟨[], 0, false⟩ Reachable.load (fun _ => ("2001:db8::w", true))

/-- Helper: one `next()` call on an initialized pool whose cursor is in
range and whose selected entry is valid returns that entry and advances
the cursor by one modulo the pool length. -/
theorem getNext_valid_step (isIPv6 : String → Bool) (fuel : Nat) (pool : List String)
    (d : Nat) (hd : d < pool.length) (ip : String) (hip : pool[d]? = some ip)
    (hv : isIPv6 ip = true) :
    getNextIPFromPool isIPv6 (fuel + 1) ⟨pool, d, true⟩ =
      some (some ip, ⟨pool, (d + 1) % pool.length, true⟩) := by
  rw [getNextIPFromPool]
  rw [if_neg (by
    dsimp only
    rintro (h1 | h2)
    · cases h1
    · omega)]
  simp only [hip, hv, if_true]

/-- Helper: a wrap-free run of `k` calls to `next()` starting at cursor
`d` on an all-valid pool returns the `k` entries from index `d` on and
leaves the cursor at `(d + k) mod len`. -/
theorem runNext_block (isIPv6 : String → Bool) (fuel : Nat) (hf : 1 ≤ fuel)
    (pool : List String) (hv : ∀ ip ∈ pool, isIPv6 ip = true) :
    ∀ (k d : Nat), d < pool.length → d + k ≤ pool.length →
      runNext isIPv6 fuel k ⟨pool, d, true⟩ =
        some (((pool.drop d).take k).map some, ⟨pool, (d + k) % pool.length, true⟩) := by
  intro k
  induction k with
  | zero =>
      intro d hd _
      simp [runNext, Nat.mod_eq_of_lt hd]
  | succ k ih =>
      intro d hd hdk
      obtain ⟨f, rfl⟩ : ∃ f, fuel = f + 1 := ⟨fuel - 1, by omega⟩
      have hip : pool[d]? = some (pool.get ⟨d, hd⟩) := by
        rw [List.getElem?_eq_getElem hd]
        simp [List.get_eq_getElem]
      rw [runNext]
      rw [getNext_valid_step isIPv6 f pool d hd _ hip (hv _ (List.get_mem pool d hd))]
      have hdrop : pool.drop d = pool.get ⟨d, hd⟩ :: pool.drop (d + 1) := by
        rw [List.drop_eq_getElem_cons hd]
        simp [List.get_eq_getElem]
      by_cases hlast : d + 1 < pool.length
      · have hmod : (d + 1) % pool.length = d + 1 := Nat.mod_eq_of_lt hlast
        rw [hmod]
        dsimp only
        rw [ih (d + 1) hlast (by omega)]
        rw [hdrop]
        simp only [List.take_succ_cons, List.map_cons]
        have harith : d + 1 + k = d + (k + 1) := by omega
        rw [harith]
      · have hend : d + 1 = pool.length := by omega
        have hk0 : k = 0 := by omega
        subst hk0
        dsimp only
        simp only [runNext]
        rw [hdrop]
        simp only [List.take_succ_cons, List.take_zero, List.map_cons,
          List.map_nil]

/-- Helper: running `a + b` calls to `next()` is running `a` calls and
then `b` calls, concatenating the returned values. -/
theorem runNext_add (isIPv6 : String → Bool) (fuel : Nat) :
    ∀ (a b : Nat) (s : PoolState),
      runNext isIPv6 fuel (a + b) s =
        (runNext isIPv6 fuel a s).bind (fun p =>
          (runNext isIPv6 fuel b p.2).map (fun q => (p.1 ++ q.1, q.2))) := by
  intro a
  induction a with
  | zero =>
      intro b s
      rw [Nat.zero_add]
      show runNext isIPv6 fuel b s = (some ([], s)).bind _
      cases hb : runNext isIPv6 fuel b s with
      | none => simp [hb]
      | some q => simp [hb]
  | succ a ih =>
      intro b s
      have hsum : a + 1 + b = (a + b) + 1 := by omega
      rw [hsum, runNext, runNext]
      cases hg : getNextIPFromPool isIPv6 fuel s with
      | none => simp
      | some p =>
          obtain ⟨r, s1⟩ := p
          dsimp only
          rw [ih b s1]
          cases hA : runNext isIPv6 fuel a s1 with
          | none => simp [hA]
          | some pa =>
              cases hB : runNext isIPv6 fuel b pa.2 with
              | none => simp [hA, hB]
              | some qb => simp [hA, hB]

/-- C2 as amended: on an initialized pool of `n > 0` syntactically valid
addresses with the cursor in range, `n` calls to `next()` return each
address exactly once, in cyclic insertion order starting at the cursor
(exactly insertion order when the cursor is at the oldest entry), and
restore the state, so further calls repeat the same cycle. -/
theorem c2_amended_round_robin_cycle (isIPv6 : String → Bool) (s : PoolState)
    (fuel : Nat) (hinit : s.initialized = true) (hn : 0 < s.ipPool.length)
    (hc : s.currentIPIndex < s.ipPool.length)
    (hv : ∀ ip ∈ s.ipPool, isIPv6 ip = true) (hf : 1 ≤ fuel) :
    runNext isIPv6 fuel s.ipPool.length s =
      some ((s.ipPool.drop s.currentIPIndex ++ s.ipPool.take s.currentIPIndex).map some,
        s) ∧
    (s.ipPool.drop s.currentIPIndex ++ s.ipPool.take s.currentIPIndex).Perm s.ipPool := by
  constructor
  · obtain ⟨pool, c, b⟩ := s
    have hb : b = true := hinit
    subst hb
    dsimp only at hn hc hv ⊢
    have hsplit : pool.length = (pool.length - c) + c := by omega
    rw [hsplit, runNext_add]
    rw [runNext_block isIPv6 fuel hf pool hv (pool.length - c) c hc (by omega)]
    have hcur1 : (c + (pool.length - c)) % pool.length = 0 := by
      have he : c + (pool.length - c) = pool.length := by omega
      rw [he, Nat.mod_self]
    have htake1 : (pool.drop c).take (pool.length - c) = pool.drop c :=
      List.take_of_length_le (by simp)
    rw [hcur1, htake1]
    simp only [Option.some_bind]
    rw [runNext_block isIPv6 fuel hf pool hv c 0 hn (by omega)]
    simp [Nat.mod_eq_of_lt hc, List.map_append]
  · exact (List.perm_append_comm).trans (by rw [List.take_append_drop])

/-- Witness for C2 (amended) on a concrete 3-address pool with the
cursor at index 1: three calls return the rotation starting there and
restore the state. -/
theorem c2_witness :
    (∀ ip ∈ (["2001:db8::1", "2001:db8::2", "2001:db8::3"] : List String),
      (fun (_ : String) => true) ip = true) ∧
    runNext (fun _ => true) 1 3 ⟨["2001:db8::1", "2001:db8::2", "2001:db8::3"], 1, true⟩ =
      some (((["2001:db8::1", "2001:db8::2", "2001:db8::3"] : List String).drop 1 ++
          (["2001:db8::1", "2001:db8::2", "2001:db8::3"] : List String).take 1).map some,
        ⟨["2001:db8::1", "2001:db8::2", "2001:db8::3"], 1, true⟩) :=
  ⟨by decide,
    (c2_amended_round_robin_cycle (fun _ => true)
      ⟨["2001:db8::1", "2001:db8::2", "2001:db8::3"], 1, true⟩ 1 rfl (by decide)
      (by decide) (by decide) (by decide)).1⟩

/-- C2 counterexample: with the pool `[addr1, addr2]` (both entries
syntactically valid) and the cursor at index 1 — a state reached from a
fresh pool by one `next()` call — the next two `next()` calls return
`[addr2, addr1]`, which is not the insertion order `[addr1, addr2]`;
so the values are not returned oldest-first as the claim states. -/
theorem c2_counterexample :
    runNext (fun _ => true) 1 2 ⟨["2001:db8::1", "2001:db8::2"], 1, true⟩ =
      some ([some "2001:db8::2", some "2001:db8::1"],
        ⟨["2001:db8::1", "2001:db8::2"], 1, true⟩) ∧
    (([some "2001:db8::2", some "2001:db8::1"] : List (Option String)) ==
      (["2001:db8::1", "2001:db8::2"] : List String).map some) = false := by
  exact ⟨rfl, rfl⟩
